import Mathlib

/-!
Shallow embedding of `football_dv_streamlit/app.py`.

Modelling conventions:
* Calendar dates are integer day numbers (`Int`); in concrete scenarios we fix
  2020-01-01 = day 0, so `d + 1` is the next calendar day and
  `(max_date - min_date).days = maxDay - minDay`.
* A CSV cell is a `Cell`; the outcome of `pd.to_datetime(..., errors="coerce")`
  on a cell is part of the input (`Cell.date (some d)` parses to day `d`,
  anything else coerces to `NaT`, i.e. `none`).
* A table row is a function from column name to cell, a table is its column
  list plus its rows.
* `st.error(...)` followed by `st.stop()` halts the load with a user-facing
  message; this is modelled by `Except.error`.
* pandas `groupby` sorts group keys ascending and emits one row per distinct
  key; this is `sortedKeys` below (insertion sort of the distinct keys).
* A left `merge` on a key that is unique on the right side is a lookup with
  `List.find?`; `fillna(0).astype(int)` turns a missed lookup into `0`.
-/

namespace FootballDV

/-- Lowercase the characters of a string, as Python's `str.lower` on the
ASCII column names used here. -/
def lowerChars (s : String) : List Char :=
  s.toList.map Char.toLower

/-- Does `pat` occur at the head of `s`? -/
def startsWithChars : List Char → List Char → Bool
  | _, [] => true
  | [], _ :: _ => false
  | c :: cs, d :: ds => c == d && startsWithChars cs ds

/-- Does `pat` occur anywhere in `s` (Python's `pat in s`)? -/
def containsChars : List Char → List Char → Bool
  | [], pat => startsWithChars [] pat
  | s@(_ :: rest), pat => startsWithChars s pat || containsChars rest pat

/-- Python's `sub in s.lower()` for a lowercase literal `sub`. -/
def strContainsCI (s sub : String) : Bool :=
  containsChars (lowerChars s) (lowerChars sub)

/-- One CSV cell.  The date-parse outcome of a cell is part of the input:
`Cell.date (some d)` is a value `pd.to_datetime` parses to day `d`; every
other cell coerces to `NaT` when date-parsed. -/
inductive Cell where
  | str : String → Cell
  | num : Int → Cell
  | date : Option Int → Cell
deriving DecidableEq

/-- Result of `pd.to_datetime(cell, errors="coerce")`. -/
def Cell.asDate : Cell → Option Int
  | .date d => d
  | _ => none

/-- Result of `astype(str)` on a cell (team-name columns hold strings). -/
def Cell.asStr : Cell → String
  | .str s => s
  | .num n => toString n
  | .date _ => ""

/-- Numeric value of a cell (goal columns hold numbers). -/
def Cell.asNum : Cell → Int
  | .num n => n
  | _ => 0

/-- A row maps a column name to its cell. -/
def Row : Type := String → Cell

/-- A loaded CSV: its column names in order, and its rows. -/
structure Table where
  cols : List String
  rows : List Row

/-- Match result for one team in one row, as the strings "win"/"loss"/"draw". -/
inductive Res where
  | win : Res
  | loss : Res
  | draw : Res
deriving DecidableEq

/-- Embedding of the inner function `result_for(team, row)` of
`load_match_data`: `home`/`away` are the (stripped) team-name cells of the
row, `home_goals`/`away_goals` its goal cells. -/
def result_for (team home away : String) (home_goals away_goals : Int) : Option Res :=
  if ¬ (home = team ∨ away = team) then none
  else if home = team then
    if home_goals > away_goals then some Res.win
    else if home_goals < away_goals then some Res.loss
    else some Res.draw
  else
    if away_goals > home_goals then some Res.win
    else if away_goals < home_goals then some Res.loss
    else some Res.draw

/-- A match-source row after date parsing and team-name stripping: the raw
fields `load_match_data` reads from the discovered columns. -/
structure RawMatch where
  date : Int
  home : String
  away : String
  hg : Int
  ag : Int
deriving DecidableEq

/-- A row of the table returned by `load_match_data`: the derived columns
`river_played`, `boca_played`, `superclasico` (ints 0/1, from `astype(int)`)
and `river_result` / `boca_result`. -/
structure MatchRow where
  date : Int
  river_played : Nat
  boca_played : Nat
  superclasico : Nat
  river_result : Option Res
  boca_result : Option Res
deriving DecidableEq

/-- The derived columns `load_match_data` adds to one raw match row
(lines 74-103 of app.py). -/
def mkMatchRow (r : RawMatch) : MatchRow :=
  { date := r.date
    river_played := if r.home = "River Plate" ∨ r.away = "River Plate" then 1 else 0
    boca_played := if r.home = "Boca Juniors" ∨ r.away = "Boca Juniors" then 1 else 0
    superclasico :=
      if (r.home = "River Plate" ∧ r.away = "Boca Juniors") ∨
         (r.home = "Boca Juniors" ∧ r.away = "River Plate") then 1 else 0
    river_result := result_for "River Plate" r.home r.away r.hg r.ag
    boca_result := result_for "Boca Juniors" r.home r.away r.hg r.ag }

/-- Insert `d` into a list kept sorted by `le`. -/
def insertSorted {α : Type} (le : α → α → Bool) (d : α) : List α → List α
  | [] => [d]
  | x :: xs => if le d x then d :: x :: xs else x :: insertSorted le d xs

/-- Insert a key, skipping duplicates. -/
def insertKey {α : Type} [BEq α] (le : α → α → Bool) (d : α) (l : List α) : List α :=
  if l.contains d then l else insertSorted le d l

/-- The distinct keys of `l`, sorted ascending by `le`: the group keys a
pandas `groupby` emits, in their order. -/
def sortedKeys {α : Type} [BEq α] (le : α → α → Bool) (l : List α) : List α :=
  l.foldr (insertKey le) []

/-- Ascending order on integer dates. -/
def intLE (a b : Int) : Bool := decide (a ≤ b)

/-- Embedding of the `groupby("date").size()` step of `load_dv_data`
(lines 27-31): one row per distinct parsed date, with that day's call count,
dates ascending. -/
def dvDaily (dates : List Int) : List (Int × Nat) :=
  (sortedKeys intLE dates).map (fun d => (d, dates.count d))

/-- Embedding of `load_dv_data` (lines 17-32): pick the first column whose
lowercased name contains "fecha" (halt if none), parse it, drop rows whose
date fails to parse, and group the surviving rows by day. -/
def load_dv_data (t : Table) : Except String (List (Int × Nat)) :=
  match t.cols.filter (fun c => strContainsCI c "fecha") with
  | [] => Except.error "No date column found in DV dataset. Please inspect the CSV."
  | dateCol :: _ =>
      Except.ok (dvDaily (t.rows.filterMap (fun r => (r dateCol).asDate)))

/-- Embedding of `load_match_data` (lines 34-105).  The input is `none` when
the local CSV file is missing (`FileNotFoundError`).  Column discovery is by
case-insensitive substring match, first match wins; rows whose date cell
fails to parse are dropped; the remaining rows get the derived columns of
`mkMatchRow`. -/
def load_match_data (file : Option Table) : Except String (List MatchRow) :=
  match file with
  | none => Except.error "Football CSV not found. Download the CSV and save it as data/liga_argentina_futbol.csv"
  | some m =>
    match m.cols.filter (fun c => strContainsCI c "date" || strContainsCI c "fecha") with
    | [] => Except.error "Could not find a date column in Liga Argentina dataset."
    | dateCol :: _ =>
      match m.cols.filter (fun c => strContainsCI c "home" && strContainsCI c "team"),
            m.cols.filter (fun c => strContainsCI c "away" && strContainsCI c "team") with
      | homeCol :: _, awayCol :: _ =>
        match m.cols.filter (fun c => strContainsCI c "home" && strContainsCI c "goal"),
              m.cols.filter (fun c => strContainsCI c "away" && strContainsCI c "goal") with
        | hgCol :: _, agCol :: _ =>
          Except.ok (m.rows.filterMap (fun r =>
            match (r dateCol).asDate with
            | none => none
            | some d => some (mkMatchRow
                { date := d
                  home := (r homeCol).asStr.trim
                  away := (r awayCol).asStr.trim
                  hg := (r hgCol).asNum
                  ag := (r agCol).asNum })))
        | _, _ => Except.error "Could not find goals columns in Liga Argentina dataset."
      | _, _ => Except.error "Could not find home_team / away_team columns in Liga Argentina dataset."

/-- One row of the per-day match aggregate `agg` of `build_daily_merged`
(lines 115-127): per-date `max` of the 0/1 flags and, for each result
column, 1 iff "win" (resp. "loss") occurs among that day's results. -/
structure AggRow where
  date : Int
  river_played : Nat
  boca_played : Nat
  superclasico : Nat
  river_win : Nat
  river_loss : Nat
  boca_win : Nat
  boca_loss : Nat
deriving DecidableEq

/-- pandas `max` aggregation over a group's 0/1 flag column. -/
def maxFlag (l : List Nat) : Nat := l.foldr max 0

/-- The aggregate row of `matches.groupby("date").agg(...)` at one date. -/
def aggAt (ms : List MatchRow) (d : Int) : AggRow :=
  let grp := ms.filter (fun r => r.date == d)
  { date := d
    river_played := maxFlag (grp.map MatchRow.river_played)
    boca_played := maxFlag (grp.map MatchRow.boca_played)
    superclasico := maxFlag (grp.map MatchRow.superclasico)
    river_win := if grp.any (fun r => r.river_result == some Res.win) then 1 else 0
    river_loss := if grp.any (fun r => r.river_result == some Res.loss) then 1 else 0
    boca_win := if grp.any (fun r => r.boca_result == some Res.win) then 1 else 0
    boca_loss := if grp.any (fun r => r.boca_result == some Res.loss) then 1 else 0 }

/-- Embedding of the `agg` table of `build_daily_merged`: one row per
distinct match date, ascending. -/
def aggMatches (ms : List MatchRow) : List AggRow :=
  (sortedKeys intLE (ms.map MatchRow.date)).map (aggAt ms)

/-- One row of the merged daily table. -/
structure DailyRow where
  date : Int
  dv_calls : Nat
  river_played : Nat
  boca_played : Nat
  superclasico : Nat
  river_win : Nat
  river_loss : Nat
  boca_win : Nat
  boca_loss : Nat
  any_match : Nat
deriving DecidableEq

/-- Embedding of `pd.date_range(start, end).date`: every day from `s` to
`e` inclusive. -/
def dateRange (s e : Int) : List Int :=
  if e < s then []
  else (List.range ((e - s).toNat + 1)).map (fun (i : Nat) => s + (i : Int))

/-- Minimum of a pandas series of dates (`.min()`); the `[]` case is junk
(pandas would give `NaN`): every theorem using it assumes a non-empty
source. -/
def listMin : List Int → Int
  | [] => 0
  | x :: xs => xs.foldl min x

/-- Maximum of a pandas series of dates (`.max()`). -/
def listMax : List Int → Int
  | [] => 0
  | x :: xs => xs.foldl max x

/-- Left-merge of the per-day call counts onto one calendar day followed by
`fillna(0)`: the `dv_daily` table has unique dates, so the merge is a
lookup. -/
def dvLookup (dv : List (Int × Nat)) (d : Int) : Nat :=
  match dv.find? (fun p => p.1 == d) with
  | some p => p.2
  | none => 0

/-- The merged row at calendar day `d`: left-merge of `dv` and `agg` onto
the calendar (lines 129-133), `fillna(0).astype(int)` on `dv_calls` and the
seven flags (lines 135-140), and the derived
`any_match = (river_played == 1) | (boca_played == 1)` (line 142). -/
def mergedRow (dv : List (Int × Nat)) (agg : List AggRow) (d : Int) : DailyRow :=
  let calls := dvLookup dv d
  let a := (agg.find? (fun a => a.date == d)).getD ⟨d, 0, 0, 0, 0, 0, 0, 0⟩
  { date := d
    dv_calls := calls
    river_played := a.river_played
    boca_played := a.boca_played
    superclasico := a.superclasico
    river_win := a.river_win
    river_loss := a.river_loss
    boca_win := a.boca_win
    boca_loss := a.boca_loss
    any_match := if a.river_played == 1 ∨ a.boca_played == 1 then 1 else 0 }

/-- Start of the merged calendar: `min(dv["date"].min(), matches["date"].min())`. -/
def mergedStart (dv : List (Int × Nat)) (ms : List MatchRow) : Int :=
  min (listMin (dv.map Prod.fst)) (listMin (ms.map MatchRow.date))

/-- End of the merged calendar: `max(dv["date"].max(), matches["date"].max())`. -/
def mergedEnd (dv : List (Int × Nat)) (ms : List MatchRow) : Int :=
  max (listMax (dv.map Prod.fst)) (listMax (ms.map MatchRow.date))

/-- Embedding of `build_daily_merged` (lines 107-143), as a function of the
two loaded tables `dv = load_dv_data()` and `ms = load_match_data()`. -/
def build_daily_merged (dv : List (Int × Nat)) (ms : List MatchRow) : List DailyRow :=
  (dateRange (mergedStart dv ms) (mergedEnd dv ms)).map (mergedRow dv (aggMatches ms))

/-! Presentation-layer computations of `page_teams` (lines 221-322).
The merged table is sorted by date with unique dates by construction, so
`df.sort_values("date")` is the identity on it and
`df_sorted[df_sorted["date"] == day]` is a `find?` lookup. -/

/-- Mean of a pandas numeric series (groups are non-empty wherever this is
applied). -/
def ratMean (l : List Nat) : Rat :=
  (l.map (fun n => (n : Rat))).sum / (l.length : Rat)

/-- River match days: `df[df["river_played"] == 1]` (line 233). -/
def riverDays (df : List DailyRow) : List DailyRow :=
  df.filter (fun r => r.river_played == 1)

/-- Boca match days: `df[df["boca_played"] == 1]` (line 263). -/
def bocaDays (df : List DailyRow) : List DailyRow :=
  df.filter (fun r => r.boca_played == 1)

/-- The `np.select` of lines 234-241: first matching condition wins,
default "draw". -/
def riverCat (r : DailyRow) : Res :=
  if r.river_win == 1 then Res.win
  else if r.river_loss == 1 then Res.loss
  else Res.draw

/-- The `np.select` of lines 264-271. -/
def bocaCat (r : DailyRow) : Res :=
  if r.boca_win == 1 then Res.win
  else if r.boca_loss == 1 then Res.loss
  else Res.draw

/-- Alphabetical order of the result labels "draw" < "loss" < "win", the
order pandas `groupby("result")` sorts string keys into. -/
def resOrder : Res → Nat
  | Res.draw => 0
  | Res.loss => 1
  | Res.win => 2

/-- Boolean order on result categories. -/
def resLE (a b : Res) : Bool := decide (resOrder a ≤ resOrder b)

/-- The `groupby("result")["dv_calls"].agg(["mean", "count"])` step shared
by the two team summaries: for each category present, its mean and count of
`dv_calls`. -/
def resultSummary (days : List DailyRow) (cat : DailyRow → Res) : List (Res × Rat × Nat) :=
  (sortedKeys resLE (days.map cat)).map (fun c =>
    ((c, ratMean ((days.filter (fun r => cat r == c)).map DailyRow.dv_calls),
      (days.filter (fun r => cat r == c)).length) : Res × Rat × Nat))

/-- The River summary table of lines 242-246. -/
def riverSummary (df : List DailyRow) : List (Res × Rat × Nat) :=
  resultSummary (riverDays df) riverCat

/-- The Boca summary table of lines 272-276. -/
def bocaSummary (df : List DailyRow) : List (Res × Rat × Nat) :=
  resultSummary (bocaDays df) bocaCat

/-- Superclásico dates (line 294). -/
def scDates (df : List DailyRow) : List Int :=
  (df.filter (fun r => r.superclasico == 1)).map DailyRow.date

/-- The window offsets `range(-3, 4)` (line 302). -/
def offsets : List Int := [-3, -2, -1, 0, 1, 2, 3]

/-- The `frames` loop of lines 300-311: for every derby date and offset,
the observation `(t, dv_calls at date + t)` when that day exists in the
merged table, skipped otherwise. -/
def scWindow (df : List DailyRow) : List (Int × Nat) :=
  ((scDates df).map (fun d =>
    offsets.filterMap (fun t =>
      match df.find? (fun row => row.date == d + t) with
      | some row => some ((t, row.dv_calls) : Int × Nat)
      | none => none))).flatten

/-- The `sc_window.groupby("t")["dv_calls"].mean()` of line 312: mean per
offset over the offsets that actually occur. -/
def scAvg (df : List DailyRow) : List (Int × Rat) :=
  (sortedKeys intLE ((scWindow df).map Prod.fst)).map (fun t =>
    ((t, ratMean (((scWindow df).filter (fun p => p.1 == t)).map Prod.snd)) : Int × Rat))

/-! Helper lemmas about the embedded operations. -/

theorem mem_insertSorted {α : Type} (le : α → α → Bool) (d : α) (l : List α) (x : α) :
    x ∈ insertSorted le d l ↔ x = d ∨ x ∈ l := by
  induction l with
  | nil => simp [insertSorted]
  | cons a as ih =>
    simp only [insertSorted]
    by_cases h : le d a = true
    · rw [if_pos h]
      simp only [List.mem_cons]
    · rw [if_neg h]
      simp only [List.mem_cons, ih]
      tauto

theorem nodup_insertSorted {α : Type} (le : α → α → Bool) (d : α) (l : List α)
    (hd : d ∉ l) (hl : l.Nodup) : (insertSorted le d l).Nodup := by
  induction l with
  | nil => simp [insertSorted]
  | cons a as ih =>
    rcases List.nodup_cons.mp hl with ⟨ha, has⟩
    have hda : d ≠ a := fun hh => hd (hh ▸ List.mem_cons_self a as)
    have hdas : d ∉ as := fun hh => hd (List.mem_cons_of_mem a hh)
    simp only [insertSorted]
    by_cases h : le d a = true
    · rw [if_pos h, List.nodup_cons]
      exact ⟨by simp [List.mem_cons, hda, hdas], hl⟩
    · rw [if_neg h, List.nodup_cons]
      refine ⟨?_, ih hdas has⟩
      rw [mem_insertSorted]
      rintro (rfl | hmem)
      · exact hda rfl
      · exact ha hmem

theorem contains_iff_mem_sk {α : Type} [BEq α] [LawfulBEq α] (l : List α) (a : α) :
    l.contains a = true ↔ a ∈ l := by
  rw [List.contains_iff_exists_mem_beq]
  constructor
  · rintro ⟨y, hy, hbeq⟩
    rwa [eq_of_beq hbeq]
  · intro h
    exact ⟨a, h, by simp⟩

theorem mem_sortedKeys {α : Type} [BEq α] [LawfulBEq α] (le : α → α → Bool)
    (l : List α) (x : α) : x ∈ sortedKeys le l ↔ x ∈ l := by
  induction l with
  | nil => simp [sortedKeys]
  | cons a as ih =>
    show x ∈ insertKey le a (sortedKeys le as) ↔ _
    unfold insertKey
    by_cases h : (sortedKeys le as).contains a = true
    · have ha : a ∈ sortedKeys le as := (contains_iff_mem_sk _ a).mp h
      rw [if_pos h]
      simp only [List.mem_cons, ih]
      constructor
      · exact Or.inr
      · rintro (rfl | hx)
        · exact ih.mp ha
        · exact hx
    · rw [if_neg h, mem_insertSorted]
      simp only [List.mem_cons, ih]

theorem nodup_sortedKeys {α : Type} [BEq α] [LawfulBEq α] (le : α → α → Bool)
    (l : List α) : (sortedKeys le l).Nodup := by
  induction l with
  | nil => simp [sortedKeys]
  | cons a as ih =>
    show (insertKey le a (sortedKeys le as)).Nodup
    unfold insertKey
    by_cases h : (sortedKeys le as).contains a = true
    · rw [if_pos h]
      exact ih
    · have ha : a ∉ sortedKeys le as := fun hmem => h ((contains_iff_mem_sk _ a).mpr hmem)
      rw [if_neg h]
      exact nodup_insertSorted le a _ ha ih

theorem find?_map_keyed {β : Type} (keys : List Int) (f : Int → β) (key : β → Int)
    (hf : ∀ k, key (f k) = k) (d : Int) :
    (keys.map f).find? (fun b => key b == d) = if d ∈ keys then some (f d) else none := by
  induction keys with
  | nil => simp
  | cons k ks ih =>
    by_cases h : k = d
    · subst h
      simp [List.find?_cons, hf]
    · have hfalse : (key (f k) == d) = false := by
        simp [hf, h]
      simp only [List.map_cons, List.find?_cons, hfalse, ih, List.mem_cons]
      simp [Ne.symm h]

theorem foldl_min_le_init (a : Int) (l : List Int) : List.foldl min a l ≤ a := by
  induction l generalizing a with
  | nil => simp
  | cons b bs ih => exact le_trans (ih (min a b)) (min_le_left a b)

theorem foldl_min_le_mem {x : Int} (a : Int) {l : List Int} (h : x ∈ l) :
    List.foldl min a l ≤ x := by
  induction l generalizing a with
  | nil => cases h
  | cons b bs ih =>
    rcases List.mem_cons.mp h with rfl | h2
    · exact le_trans (foldl_min_le_init (min a x) bs) (min_le_right a x)
    · exact ih (min a b) h2

theorem init_le_foldl_max (a : Int) (l : List Int) : a ≤ List.foldl max a l := by
  induction l generalizing a with
  | nil => simp
  | cons b bs ih => exact le_trans (le_max_left a b) (ih (max a b))

theorem mem_le_foldl_max {x : Int} (a : Int) {l : List Int} (h : x ∈ l) :
    x ≤ List.foldl max a l := by
  induction l generalizing a with
  | nil => cases h
  | cons b bs ih =>
    rcases List.mem_cons.mp h with rfl | h2
    · exact le_trans (le_max_right a x) (init_le_foldl_max (max a x) bs)
    · exact ih (max a b) h2

theorem listMin_le {l : List Int} {x : Int} (h : x ∈ l) : listMin l ≤ x := by
  cases l with
  | nil => cases h
  | cons a as =>
    rcases List.mem_cons.mp h with rfl | h2
    · exact foldl_min_le_init x as
    · exact foldl_min_le_mem a h2

theorem le_listMax {l : List Int} {x : Int} (h : x ∈ l) : x ≤ listMax l := by
  cases l with
  | nil => cases h
  | cons a as =>
    rcases List.mem_cons.mp h with rfl | h2
    · exact init_le_foldl_max x as
    · exact mem_le_foldl_max a h2

theorem mem_dateRange {s e d : Int} : d ∈ dateRange s e ↔ s ≤ d ∧ d ≤ e := by
  unfold dateRange
  by_cases h : e < s
  · rw [if_pos h]
    simp only [List.not_mem_nil, false_iff]
    omega
  · rw [if_neg h]
    simp only [List.mem_map, List.mem_range]
    constructor
    · rintro ⟨i, hi, rfl⟩
      omega
    · intro hd
      exact ⟨(d - s).toNat, by omega, by omega⟩

theorem length_dateRange {s e : Int} (h : s ≤ e) :
    (dateRange s e).length = (e - s).toNat + 1 := by
  unfold dateRange
  rw [if_neg (by omega)]
  simp

theorem pairwise_dateRange (s e : Int) : (dateRange s e).Pairwise (· < ·) := by
  unfold dateRange
  by_cases h : e < s
  · simp [h]
  · rw [if_neg h]
    exact (List.pairwise_lt_range _).map _ (fun a b hab => by omega)

theorem nodup_dateRange (s e : Int) : (dateRange s e).Nodup :=
  (pairwise_dateRange s e).imp ne_of_lt

theorem dvLookup_dvDaily (dates : List Int) (d : Int) :
    dvLookup (dvDaily dates) d = dates.count d := by
  unfold dvLookup dvDaily
  rw [find?_map_keyed _ _ Prod.fst (fun k => rfl) d]
  by_cases h : d ∈ sortedKeys intLE dates
  · simp [h]
  · have hd : d ∉ dates := fun hh => h ((mem_sortedKeys intLE dates d).mpr hh)
    simp [h, List.count_eq_zero.mpr hd]

theorem aggAt_date (ms : List MatchRow) (d : Int) : (aggAt ms d).date = d := rfl

theorem find?_aggMatches (ms : List MatchRow) (d : Int) :
    (aggMatches ms).find? (fun a => a.date == d) =
      if d ∈ ms.map MatchRow.date then some (aggAt ms d) else none := by
  unfold aggMatches
  rw [find?_map_keyed _ _ AggRow.date (fun k => aggAt_date ms k) d]
  by_cases h : d ∈ sortedKeys intLE (ms.map MatchRow.date)
  · rw [if_pos h, if_pos ((mem_sortedKeys intLE _ d).mp h)]
  · rw [if_neg h, if_neg (fun hh => h ((mem_sortedKeys intLE _ d).mpr hh))]

theorem maxFlag_mem_or_zero (l : List Nat) : maxFlag l ∈ l ∨ maxFlag l = 0 := by
  induction l with
  | nil => exact Or.inr rfl
  | cons a as ih =>
    show max a (maxFlag as) ∈ a :: as ∨ max a (maxFlag as) = 0
    rcases Nat.le_total a (maxFlag as) with h | h
    · rw [max_eq_right h]
      rcases ih with hmem | hzero
      · exact Or.inl (List.mem_cons_of_mem a hmem)
      · exact Or.inr hzero
    · rw [max_eq_left h]
      exact Or.inl (List.mem_cons_self a as)

theorem le_maxFlag {l : List Nat} {x : Nat} (h : x ∈ l) : x ≤ maxFlag l := by
  induction l with
  | nil => cases h
  | cons a as ih =>
    show x ≤ max a (maxFlag as)
    rcases List.mem_cons.mp h with rfl | h2
    · exact le_max_left x _
    · exact le_trans (ih h2) (le_max_right a _)

theorem maxFlag_le {l : List Nat} {b : Nat} (h : ∀ x ∈ l, x ≤ b) : maxFlag l ≤ b := by
  induction l with
  | nil => exact Nat.zero_le b
  | cons a as ih =>
    show max a (maxFlag as) ≤ b
    exact max_le (h a (List.mem_cons_self a as))
      (ih (fun x hx => h x (List.mem_cons_of_mem a hx)))

theorem result_for_some_team {team home away : String} {hg ag : Int} {res : Res}
    (h : result_for team home away hg ag = some res) : home = team ∨ away = team := by
  by_cases hc : home = team ∨ away = team
  · exact hc
  · rw [result_for, if_pos hc] at h
    cases h

theorem mkMatchRow_date (r : RawMatch) : (mkMatchRow r).date = r.date := rfl

theorem mkMatchRow_flag_le_one (r : RawMatch) :
    (mkMatchRow r).river_played ≤ 1 ∧ (mkMatchRow r).boca_played ≤ 1 ∧
    (mkMatchRow r).superclasico ≤ 1 := by
  unfold mkMatchRow
  refine ⟨?_, ?_, ?_⟩ <;> dsimp only <;> split <;> omega

theorem mkMatchRow_superclasico_played {r : RawMatch}
    (h : (mkMatchRow r).superclasico = 1) :
    (mkMatchRow r).river_played = 1 ∧ (mkMatchRow r).boca_played = 1 := by
  unfold mkMatchRow at *
  dsimp only at *
  by_cases hc : (r.home = "River Plate" ∧ r.away = "Boca Juniors") ∨
      (r.home = "Boca Juniors" ∧ r.away = "River Plate")
  · rcases hc with ⟨h1, h2⟩ | ⟨h1, h2⟩ <;> simp [h1, h2]
  · rw [if_neg hc] at h
    cases h

theorem mkMatchRow_river_result_played {r : RawMatch} {res : Res}
    (h : (mkMatchRow r).river_result = some res) : (mkMatchRow r).river_played = 1 := by
  have hc : r.home = "River Plate" ∨ r.away = "River Plate" := result_for_some_team h
  unfold mkMatchRow
  dsimp only
  rw [if_pos hc]

theorem mkMatchRow_boca_result_played {r : RawMatch} {res : Res}
    (h : (mkMatchRow r).boca_result = some res) : (mkMatchRow r).boca_played = 1 := by
  have hc : r.home = "Boca Juniors" ∨ r.away = "Boca Juniors" := result_for_some_team h
  unfold mkMatchRow
  dsimp only
  rw [if_pos hc]

theorem map_date_build (dv : List (Int × Nat)) (ms : List MatchRow) :
    (build_daily_merged dv ms).map DailyRow.date =
      dateRange (mergedStart dv ms) (mergedEnd dv ms) := by
  unfold build_daily_merged
  rw [List.map_map]
  have h : ∀ d ∈ dateRange (mergedStart dv ms) (mergedEnd dv ms),
      (DailyRow.date ∘ mergedRow dv (aggMatches ms)) d = id d := fun d _ => rfl
  rw [List.map_congr_left h, List.map_id]

theorem mem_build_daily_merged {dv : List (Int × Nat)} {ms : List MatchRow} {row : DailyRow} :
    row ∈ build_daily_merged dv ms ↔
      ∃ d, (mergedStart dv ms ≤ d ∧ d ≤ mergedEnd dv ms) ∧
        row = mergedRow dv (aggMatches ms) d := by
  unfold build_daily_merged
  simp only [List.mem_map]
  constructor
  · rintro ⟨d, hd, rfl⟩
    exact ⟨d, mem_dateRange.mp hd, rfl⟩
  · rintro ⟨d, hd, rfl⟩
    exact ⟨d, mem_dateRange.mpr hd, rfl⟩

theorem map_fst_dvDaily (dates : List Int) :
    (dvDaily dates).map Prod.fst = sortedKeys intLE dates := by
  unfold dvDaily
  rw [List.map_map]
  have h : ∀ d ∈ sortedKeys intLE dates,
      (Prod.fst ∘ fun d => ((d, dates.count d) : Int × Nat)) d = id d := fun d _ => rfl
  rw [List.map_congr_left h, List.map_id]

theorem maxFlag_eq_one_exists {ms : List MatchRow} {d : Int} (sel : MatchRow → Nat)
    (h : maxFlag ((ms.filter (fun r => r.date == d)).map sel) = 1) :
    ∃ r ∈ ms.filter (fun r => r.date == d), sel r = 1 := by
  rcases maxFlag_mem_or_zero ((ms.filter (fun r => r.date == d)).map sel) with hmm | hzero
  · rw [h] at hmm
    rcases List.mem_map.mp hmm with ⟨r, hr, hr1⟩
    exact ⟨r, hr, hr1⟩
  · rw [h] at hzero
    exact absurd hzero one_ne_zero

theorem maxFlag_eq_one_of_flag {rs : List RawMatch} {d : Int}
    (sel : MatchRow → Nat) (hsel : ∀ r0 : RawMatch, sel (mkMatchRow r0) ≤ 1)
    {r : MatchRow} (hr : r ∈ (rs.map mkMatchRow).filter (fun r => r.date == d))
    (h1 : sel r = 1) :
    maxFlag (((rs.map mkMatchRow).filter (fun r => r.date == d)).map sel) = 1 := by
  have hmem1 : (1 : Nat) ∈ ((rs.map mkMatchRow).filter (fun r => r.date == d)).map sel :=
    List.mem_map.mpr ⟨r, hr, h1⟩
  have hle : ∀ x ∈ ((rs.map mkMatchRow).filter (fun r => r.date == d)).map sel, x ≤ 1 := by
    intro x hx
    rcases List.mem_map.mp hx with ⟨r2, hr2, rfl⟩
    rcases List.mem_map.mp (List.mem_filter.mp hr2).1 with ⟨r0, hr0, rfl⟩
    exact hsel r0
  exact le_antisymm (maxFlag_le hle) (le_maxFlag hmem1)

/-! The claim theorems. -/

/-- C1: for every pair of non-empty loaded inputs, the merged table of
`build_daily_merged` has exactly `(max_date - min_date).days + 1` rows,
its date column is strictly increasing (hence duplicate-free), and every
calendar day of the inclusive range `[mergedStart, mergedEnd]` — the range
spanned by the union of both sources' dates — appears exactly once (no
gaps). -/
theorem C1_merged_calendar (dv : List (Int × Nat)) (ms : List MatchRow)
    (hdv : dv ≠ []) (_hms : ms ≠ []) :
    (build_daily_merged dv ms).length
        = (mergedEnd dv ms - mergedStart dv ms).toNat + 1 ∧
    ((build_daily_merged dv ms).map DailyRow.date).Pairwise (· < ·) ∧
    ∀ d : Int, mergedStart dv ms ≤ d → d ≤ mergedEnd dv ms →
      ((build_daily_merged dv ms).map DailyRow.date).count d = 1 := by
  have hse : mergedStart dv ms ≤ mergedEnd dv ms := by
    rcases dv with _ | ⟨p, ps⟩
    · exact absurd rfl hdv
    · have hmem : p.1 ∈ ((p :: ps).map Prod.fst) := by simp
      have h1 : listMin ((p :: ps).map Prod.fst) ≤ p.1 := listMin_le hmem
      have h2 : p.1 ≤ listMax ((p :: ps).map Prod.fst) := le_listMax hmem
      calc mergedStart (p :: ps) ms ≤ listMin ((p :: ps).map Prod.fst) := min_le_left _ _
        _ ≤ listMax ((p :: ps).map Prod.fst) := le_trans h1 h2
        _ ≤ mergedEnd (p :: ps) ms := le_max_left _ _
  refine ⟨?_, ?_, ?_⟩
  · have hlen : (build_daily_merged dv ms).length
        = ((build_daily_merged dv ms).map DailyRow.date).length := (List.length_map _ _).symm
    rw [hlen, map_date_build, length_dateRange hse]
  · rw [map_date_build]
    exact pairwise_dateRange _ _
  · intro d h1 h2
    rw [map_date_build]
    exact List.count_eq_one_of_mem (nodup_dateRange _ _) (mem_dateRange.mpr ⟨h1, h2⟩)

/-- Witness for C1: both hypotheses hold at a concrete input and the row
count is as the theorem states. -/
theorem C1_merged_calendar_witness :
    (([((0 : Int), (5 : Nat))] ≠ ([] : List (Int × Nat))) ∧
      ([mkMatchRow ⟨2, "River Plate", "Lanus", 1, 0⟩] ≠ ([] : List MatchRow))) ∧
    (build_daily_merged [((0 : Int), (5 : Nat))]
        [mkMatchRow ⟨2, "River Plate", "Lanus", 1, 0⟩]).length
      = (mergedEnd [((0 : Int), (5 : Nat))] [mkMatchRow ⟨2, "River Plate", "Lanus", 1, 0⟩]
          - mergedStart [((0 : Int), (5 : Nat))]
              [mkMatchRow ⟨2, "River Plate", "Lanus", 1, 0⟩]).toNat + 1 :=
  ⟨⟨by decide, by decide⟩,
    (C1_merged_calendar _ _ (by decide) (by decide)).1⟩

/-- C2: in every merged row, `any_match` is set exactly when `river_played`
or `boca_played` is set; `superclasico = 1` forces both played flags; and a
day with no match row has every flag zero.  The first two facts hold
through the per-day `max` aggregation, including days with several
matches. -/
theorem C2_flag_invariants (dv : List (Int × Nat)) (rs : List RawMatch) (row : DailyRow)
    (hrow : row ∈ build_daily_merged dv (rs.map mkMatchRow)) :
    (row.any_match = 1 ↔ (row.river_played = 1 ∨ row.boca_played = 1)) ∧
    (row.superclasico = 1 → row.river_played = 1 ∧ row.boca_played = 1) ∧
    ((∀ r ∈ rs, r.date ≠ row.date) →
      row.river_played = 0 ∧ row.boca_played = 0 ∧ row.superclasico = 0 ∧
      row.river_win = 0 ∧ row.river_loss = 0 ∧ row.boca_win = 0 ∧ row.boca_loss = 0 ∧
      row.any_match = 0) := by
  rcases mem_build_daily_merged.mp hrow with ⟨d, hd, rfl⟩
  unfold mergedRow
  rw [find?_aggMatches]
  by_cases hmem : d ∈ (rs.map mkMatchRow).map MatchRow.date
  · rw [if_pos hmem]
    simp only [Option.getD_some]
    refine ⟨?_, ?_, ?_⟩
    · by_cases hp : (aggAt (rs.map mkMatchRow) d).river_played == 1
        ∨ (aggAt (rs.map mkMatchRow) d).boca_played == 1
      · simp only [if_pos hp]
        simpa using hp
      · simp only [if_neg hp]
        constructor
        · intro h01
          exact absurd h01 one_ne_zero.symm
        · intro hor
          exact absurd (by simpa using hor) hp
    · intro hsc
      rcases maxFlag_eq_one_exists MatchRow.superclasico hsc with ⟨r, hr, hr1⟩
      rcases List.mem_map.mp (List.mem_filter.mp hr).1 with ⟨r0, hr0, rfl⟩
      have hsp := mkMatchRow_superclasico_played hr1
      exact ⟨maxFlag_eq_one_of_flag MatchRow.river_played
          (fun r0 => (mkMatchRow_flag_le_one r0).1) hr hsp.1,
        maxFlag_eq_one_of_flag MatchRow.boca_played
          (fun r0 => (mkMatchRow_flag_le_one r0).2.1) hr hsp.2⟩
    · intro hnone
      exfalso
      rcases List.mem_map.mp hmem with ⟨r, hr, hrd⟩
      rcases List.mem_map.mp hr with ⟨r0, hr0, rfl⟩
      exact hnone r0 hr0 (by simpa [mkMatchRow_date] using hrd)
  · rw [if_neg hmem]
    simp

/-- Witness for C2 at the C5 scenario's derby day: the row of day 2 is in
the merged table, its superclásico flag is set, and both played flags
follow. -/
theorem C2_flag_invariants_witness :
    (mergedRow (dvDaily [0, 0, 0, 0, 0])
        (aggMatches ([⟨2, "River Plate", "Boca Juniors", 2, 1⟩].map mkMatchRow)) 2)
      ∈ build_daily_merged (dvDaily [0, 0, 0, 0, 0])
          ([⟨2, "River Plate", "Boca Juniors", 2, 1⟩].map mkMatchRow) ∧
    (mergedRow (dvDaily [0, 0, 0, 0, 0])
        (aggMatches ([⟨2, "River Plate", "Boca Juniors", 2, 1⟩].map mkMatchRow)) 2).superclasico = 1 ∧
    (mergedRow (dvDaily [0, 0, 0, 0, 0])
        (aggMatches ([⟨2, "River Plate", "Boca Juniors", 2, 1⟩].map mkMatchRow)) 2).river_played = 1 ∧
    (mergedRow (dvDaily [0, 0, 0, 0, 0])
        (aggMatches ([⟨2, "River Plate", "Boca Juniors", 2, 1⟩].map mkMatchRow)) 2).boca_played = 1 := by
  have hmem : (mergedRow (dvDaily [0, 0, 0, 0, 0])
      (aggMatches ([⟨2, "River Plate", "Boca Juniors", 2, 1⟩].map mkMatchRow)) 2)
        ∈ build_daily_merged (dvDaily [0, 0, 0, 0, 0])
          ([⟨2, "River Plate", "Boca Juniors", 2, 1⟩].map mkMatchRow) :=
    mem_build_daily_merged.mpr ⟨2, by decide, rfl⟩
  exact ⟨hmem, by decide,
    (C2_flag_invariants (dvDaily [0, 0, 0, 0, 0])
      [⟨2, "River Plate", "Boca Juniors", 2, 1⟩] _ hmem).2.1 (by decide)⟩

/-- C3: `result_for` is undefined exactly when the team is neither the home
nor the away side; when the team is the home side it compares
`home_goals` against `away_goals`, and when it is (only) the away side it
compares `away_goals` against `home_goals`, yielding win/loss/draw. -/
theorem C3_result_rule (team home away : String) (hg ag : Int)
    (_hteam : team = "River Plate" ∨ team = "Boca Juniors") :
    (result_for team home away hg ag = none ↔ ¬ (home = team ∨ away = team)) ∧
    (home = team →
      result_for team home away hg ag =
        some (if ag < hg then Res.win else if hg < ag then Res.loss else Res.draw)) ∧
    (home ≠ team → away = team →
      result_for team home away hg ag =
        some (if hg < ag then Res.win else if ag < hg then Res.loss else Res.draw)) := by
  refine ⟨?_, ?_, ?_⟩
  · unfold result_for
    by_cases hc : home = team ∨ away = team
    · rw [if_neg (not_not_intro hc)]
      simp only [hc, not_true, iff_false]
      by_cases hh : home = team
      · rw [if_pos hh]
        split_ifs <;> simp
      · rw [if_neg hh]
        split_ifs <;> simp
    · rw [if_pos hc]
      simp [hc]
  · intro hh
    unfold result_for
    rw [if_neg (not_not_intro (Or.inl hh)), if_pos hh]
    split_ifs <;> rfl
  · intro hh ha
    unfold result_for
    rw [if_neg (not_not_intro (Or.inr ha)), if_neg hh]
    split_ifs <;> rfl

/-- Witness for C3: River beating Boca 2-1 at home is a win for River. -/
theorem C3_result_rule_witness :
    result_for "River Plate" "River Plate" "Boca Juniors" 2 1 = some Res.win := by
  have h := (C3_result_rule "River Plate" "River Plate" "Boca Juniors" 2 1
    (Or.inl rfl)).2.1 rfl
  rw [h]
  decide

/-- C5: the concrete scenario — five calls on 2020-01-01 (day 0) and one
match River 2-1 Boca at home on 2020-01-03 (day 2) — merges into exactly
the three expected rows. -/
theorem C5_concrete_scenario :
    build_daily_merged (dvDaily [0, 0, 0, 0, 0])
        ([⟨2, "River Plate", "Boca Juniors", 2, 1⟩].map mkMatchRow)
      = [⟨0, 5, 0, 0, 0, 0, 0, 0, 0, 0⟩,
         ⟨1, 0, 0, 0, 0, 0, 0, 0, 0, 0⟩,
         ⟨2, 0, 1, 1, 1, 1, 0, 0, 1, 1⟩] := by
  decide

/-- C10: a win or loss flag in a merged row forces the corresponding played
flag, because a result is only defined for a team appearing as home or
away. -/
theorem C10_result_implies_played (dv : List (Int × Nat)) (rs : List RawMatch) (row : DailyRow)
    (hrow : row ∈ build_daily_merged dv (rs.map mkMatchRow)) :
    ((row.river_win = 1 ∨ row.river_loss = 1) → row.river_played = 1) ∧
    ((row.boca_win = 1 ∨ row.boca_loss = 1) → row.boca_played = 1) := by
  rcases mem_build_daily_merged.mp hrow with ⟨d, hd, rfl⟩
  unfold mergedRow
  rw [find?_aggMatches]
  by_cases hmem : d ∈ (rs.map mkMatchRow).map MatchRow.date
  · rw [if_pos hmem]
    simp only [Option.getD_some]
    have key : ∀ (selRes : MatchRow → Option Res) (selPl : MatchRow → Nat) (v : Res),
        (∀ r0 : RawMatch, selPl (mkMatchRow r0) ≤ 1) →
        (∀ (r0 : RawMatch) (res : Res),
          selRes (mkMatchRow r0) = some res → selPl (mkMatchRow r0) = 1) →
        (if ((rs.map mkMatchRow).filter (fun r => r.date == d)).any
            (fun r => selRes r == some v) then 1 else 0) = (1 : Nat) →
        maxFlag (((rs.map mkMatchRow).filter (fun r => r.date == d)).map selPl) = 1 := by
      intro selRes selPl v hb hp h1
      by_cases hany : ((rs.map mkMatchRow).filter (fun r => r.date == d)).any
          (fun r => selRes r == some v)
      · rcases List.any_eq_true.mp hany with ⟨r, hr, hres⟩
        rcases List.mem_map.mp (List.mem_filter.mp hr).1 with ⟨r0, hr0, rfl⟩
        exact maxFlag_eq_one_of_flag selPl hb hr (hp r0 v (by simpa using hres))
      · rw [if_neg hany] at h1
        exact absurd h1 one_ne_zero.symm
    constructor
    · rintro (h | h)
      · exact key MatchRow.river_result MatchRow.river_played Res.win
          (fun r0 => (mkMatchRow_flag_le_one r0).1)
          (fun r0 res hres => mkMatchRow_river_result_played hres) h
      · exact key MatchRow.river_result MatchRow.river_played Res.loss
          (fun r0 => (mkMatchRow_flag_le_one r0).1)
          (fun r0 res hres => mkMatchRow_river_result_played hres) h
    · rintro (h | h)
      · exact key MatchRow.boca_result MatchRow.boca_played Res.win
          (fun r0 => (mkMatchRow_flag_le_one r0).2.1)
          (fun r0 res hres => mkMatchRow_boca_result_played hres) h
      · exact key MatchRow.boca_result MatchRow.boca_played Res.loss
          (fun r0 => (mkMatchRow_flag_le_one r0).2.1)
          (fun r0 res hres => mkMatchRow_boca_result_played hres) h
  · rw [if_neg hmem]
    simp only [Option.getD_none]
    constructor <;> rintro (h | h) <;> exact absurd h one_ne_zero.symm

/-- Witness for C10 at the C5 scenario's derby day: day 2 has the River win
flag set and River's played flag follows. -/
theorem C10_result_implies_played_witness :
    (mergedRow (dvDaily [0, 0, 0, 0, 0])
        (aggMatches ([⟨2, "River Plate", "Boca Juniors", 2, 1⟩].map mkMatchRow)) 2)
      ∈ build_daily_merged (dvDaily [0, 0, 0, 0, 0])
          ([⟨2, "River Plate", "Boca Juniors", 2, 1⟩].map mkMatchRow) ∧
    (mergedRow (dvDaily [0, 0, 0, 0, 0])
        (aggMatches ([⟨2, "River Plate", "Boca Juniors", 2, 1⟩].map mkMatchRow)) 2).river_win = 1 ∧
    (mergedRow (dvDaily [0, 0, 0, 0, 0])
        (aggMatches ([⟨2, "River Plate", "Boca Juniors", 2, 1⟩].map mkMatchRow)) 2).river_played = 1 := by
  have hmem : (mergedRow (dvDaily [0, 0, 0, 0, 0])
      (aggMatches ([⟨2, "River Plate", "Boca Juniors", 2, 1⟩].map mkMatchRow)) 2)
        ∈ build_daily_merged (dvDaily [0, 0, 0, 0, 0])
          ([⟨2, "River Plate", "Boca Juniors", 2, 1⟩].map mkMatchRow) :=
    mem_build_daily_merged.mpr ⟨2, by decide, rfl⟩
  exact ⟨hmem, by decide,
    (C10_result_implies_played (dvDaily [0, 0, 0, 0, 0])
      [⟨2, "River Plate", "Boca Juniors", 2, 1⟩] _ hmem).1 (Or.inl (by decide))⟩

/-- C4: the sum of `dv_calls` over the merged table equals the number of
call-source rows with a parseable date (`dates` is the list of parsed dates,
one entry per such row): the zero-fill and the two left-joins neither lose
nor duplicate any call.  Since every call date lies inside the merged range,
this also equals the per-day call counts summed over that range. -/
theorem C4_call_conservation (dates : List Int) (rs : List RawMatch)
    (_hdv : dates ≠ []) (_hms : rs ≠ []) :
    ((build_daily_merged (dvDaily dates) (rs.map mkMatchRow)).map DailyRow.dv_calls).sum
      = dates.length := by
  have hmap : (build_daily_merged (dvDaily dates) (rs.map mkMatchRow)).map DailyRow.dv_calls
      = (dateRange (mergedStart (dvDaily dates) (rs.map mkMatchRow))
          (mergedEnd (dvDaily dates) (rs.map mkMatchRow))).map (fun d => dates.count d) := by
    unfold build_daily_merged
    rw [List.map_map]
    refine List.map_congr_left ?_
    intro d _
    show dvLookup (dvDaily dates) d = dates.count d
    exact dvLookup_dvDaily dates d
  rw [hmap]
  have hnodup := nodup_dateRange (mergedStart (dvDaily dates) (rs.map mkMatchRow))
    (mergedEnd (dvDaily dates) (rs.map mkMatchRow))
  rw [← List.sum_toFinset _ hnodup]
  have hsubset : dates.toFinset ⊆ (dateRange (mergedStart (dvDaily dates) (rs.map mkMatchRow))
      (mergedEnd (dvDaily dates) (rs.map mkMatchRow))).toFinset := by
    intro x hx
    rw [List.mem_toFinset] at hx
    rw [List.mem_toFinset, mem_dateRange]
    have hx1 : x ∈ (dvDaily dates).map Prod.fst := by
      rw [map_fst_dvDaily]
      exact (mem_sortedKeys intLE dates x).mpr hx
    constructor
    · exact le_trans (min_le_left _ _) (listMin_le hx1)
    · exact le_trans (le_listMax hx1) (le_max_left _ _)
  have hvanish : ∀ x ∈ (dateRange (mergedStart (dvDaily dates) (rs.map mkMatchRow))
      (mergedEnd (dvDaily dates) (rs.map mkMatchRow))).toFinset,
      x ∉ dates.toFinset → dates.count x = 0 := by
    intro x _ hx
    rw [List.mem_toFinset] at hx
    exact List.count_eq_zero.mpr hx
  rw [← Finset.sum_subset hsubset hvanish]
  exact List.sum_toFinset_count_eq_length dates

/-- Witness for C4 at a concrete input: three parseable call rows. -/
theorem C4_call_conservation_witness :
    (([0, 0, 7] : List Int) ≠ [] ∧ ([⟨2, "Lanus", "Tigre", 1, 1⟩] : List RawMatch) ≠ []) ∧
    ((build_daily_merged (dvDaily [0, 0, 7])
        ([⟨2, "Lanus", "Tigre", 1, 1⟩].map mkMatchRow)).map DailyRow.dv_calls).sum
      = ([0, 0, 7] : List Int).length :=
  ⟨⟨by decide, by decide⟩,
    C4_call_conservation [0, 0, 7] [⟨2, "Lanus", "Tigre", 1, 1⟩] (by decide) (by decide)⟩

theorem exists_iff_filter_ne_nil (p : String → Bool) (l : List String) :
    (∃ c ∈ l, p c = true) ↔ l.filter p ≠ [] := by
  rw [Ne, List.filter_eq_nil_iff]
  simp

theorem head_filter_exists {p : String → Bool} {l : List String} {c : String} {cs : List String}
    (h : l.filter p = c :: cs) : ∃ c ∈ l, p c = true := by
  have hmem : c ∈ l.filter p := h ▸ List.mem_cons_self c cs
  rcases List.mem_filter.mp hmem with ⟨h1, h2⟩
  exact ⟨c, h1, h2⟩

theorem load_dv_data_of_no_col {t : Table}
    (hf : t.cols.filter (fun c => strContainsCI c "fecha") = []) :
    load_dv_data t
      = Except.error "No date column found in DV dataset. Please inspect the CSV." := by
  unfold load_dv_data
  rw [hf]

theorem load_dv_data_of_col {t : Table} {c : String} {cs : List String}
    (hf : t.cols.filter (fun c => strContainsCI c "fecha") = c :: cs) :
    load_dv_data t = Except.ok (dvDaily (t.rows.filterMap (fun r => (r c).asDate))) := by
  unfold load_dv_data
  rw [hf]

theorem load_match_data_date_error {t : Table}
    (hd : t.cols.filter (fun c => strContainsCI c "date" || strContainsCI c "fecha") = []) :
    load_match_data (some t)
      = Except.error "Could not find a date column in Liga Argentina dataset." := by
  unfold load_match_data
  dsimp only
  rw [hd]

theorem load_match_data_team_error_left {t : Table} {dc : String} {dcs : List String}
    (hd : t.cols.filter (fun c => strContainsCI c "date" || strContainsCI c "fecha") = dc :: dcs)
    (hh : t.cols.filter (fun c => strContainsCI c "home" && strContainsCI c "team") = []) :
    load_match_data (some t)
      = Except.error "Could not find home_team / away_team columns in Liga Argentina dataset." := by
  unfold load_match_data
  dsimp only
  rw [hd, hh]

theorem load_match_data_team_error_right {t : Table} {dc hc : String} {dcs hcs : List String}
    (hd : t.cols.filter (fun c => strContainsCI c "date" || strContainsCI c "fecha") = dc :: dcs)
    (hh : t.cols.filter (fun c => strContainsCI c "home" && strContainsCI c "team") = hc :: hcs)
    (ha : t.cols.filter (fun c => strContainsCI c "away" && strContainsCI c "team") = []) :
    load_match_data (some t)
      = Except.error "Could not find home_team / away_team columns in Liga Argentina dataset." := by
  unfold load_match_data
  dsimp only
  rw [hd, hh, ha]

theorem load_match_data_goal_error_left {t : Table} {dc hc ac : String}
    {dcs hcs acs : List String}
    (hd : t.cols.filter (fun c => strContainsCI c "date" || strContainsCI c "fecha") = dc :: dcs)
    (hh : t.cols.filter (fun c => strContainsCI c "home" && strContainsCI c "team") = hc :: hcs)
    (ha : t.cols.filter (fun c => strContainsCI c "away" && strContainsCI c "team") = ac :: acs)
    (hg : t.cols.filter (fun c => strContainsCI c "home" && strContainsCI c "goal") = []) :
    load_match_data (some t)
      = Except.error "Could not find goals columns in Liga Argentina dataset." := by
  unfold load_match_data
  dsimp only
  rw [hd, hh, ha, hg]

theorem load_match_data_goal_error_right {t : Table} {dc hc ac gc : String}
    {dcs hcs acs gcs : List String}
    (hd : t.cols.filter (fun c => strContainsCI c "date" || strContainsCI c "fecha") = dc :: dcs)
    (hh : t.cols.filter (fun c => strContainsCI c "home" && strContainsCI c "team") = hc :: hcs)
    (ha : t.cols.filter (fun c => strContainsCI c "away" && strContainsCI c "team") = ac :: acs)
    (hg : t.cols.filter (fun c => strContainsCI c "home" && strContainsCI c "goal") = gc :: gcs)
    (hag : t.cols.filter (fun c => strContainsCI c "away" && strContainsCI c "goal") = []) :
    load_match_data (some t)
      = Except.error "Could not find goals columns in Liga Argentina dataset." := by
  unfold load_match_data
  dsimp only
  rw [hd, hh, ha, hg, hag]

theorem load_match_data_ok {t : Table} {dc hc ac gc agc : String}
    {dcs hcs acs gcs agcs : List String}
    (hd : t.cols.filter (fun c => strContainsCI c "date" || strContainsCI c "fecha") = dc :: dcs)
    (hh : t.cols.filter (fun c => strContainsCI c "home" && strContainsCI c "team") = hc :: hcs)
    (ha : t.cols.filter (fun c => strContainsCI c "away" && strContainsCI c "team") = ac :: acs)
    (hg : t.cols.filter (fun c => strContainsCI c "home" && strContainsCI c "goal") = gc :: gcs)
    (hag : t.cols.filter (fun c => strContainsCI c "away" && strContainsCI c "goal") = agc :: agcs) :
    load_match_data (some t)
      = Except.ok (t.rows.filterMap (fun r =>
          match (r dc).asDate with
          | none => none
          | some d => some (mkMatchRow
              { date := d
                home := (r hc).asStr.trim
                away := (r ac).asStr.trim
                hg := (r gc).asNum
                ag := (r agc).asNum }))) := by
  unfold load_match_data
  dsimp only
  rw [hd, hh, ha, hg, hag]

theorem load_match_data_ok_iff (t : Table) :
    (∃ out, load_match_data (some t) = Except.ok out) ↔
      ((∃ c ∈ t.cols, (strContainsCI c "date" || strContainsCI c "fecha") = true) ∧
       (∃ c ∈ t.cols, (strContainsCI c "home" && strContainsCI c "team") = true) ∧
       (∃ c ∈ t.cols, (strContainsCI c "away" && strContainsCI c "team") = true) ∧
       (∃ c ∈ t.cols, (strContainsCI c "home" && strContainsCI c "goal") = true) ∧
       (∃ c ∈ t.cols, (strContainsCI c "away" && strContainsCI c "goal") = true)) := by
  cases hd : t.cols.filter (fun c => strContainsCI c "date" || strContainsCI c "fecha") with
  | nil =>
    rw [load_match_data_date_error hd]
    constructor
    · rintro ⟨out, hout⟩
      cases hout
    · rintro ⟨h1, -⟩
      rw [exists_iff_filter_ne_nil] at h1
      exact absurd hd h1
  | cons dc dcs =>
  cases hh : t.cols.filter (fun c => strContainsCI c "home" && strContainsCI c "team") with
  | nil =>
    rw [load_match_data_team_error_left hd hh]
    constructor
    · rintro ⟨out, hout⟩
      cases hout
    · rintro ⟨-, h2, -⟩
      rw [exists_iff_filter_ne_nil] at h2
      exact absurd hh h2
  | cons hc hcs =>
  cases ha : t.cols.filter (fun c => strContainsCI c "away" && strContainsCI c "team") with
  | nil =>
    rw [load_match_data_team_error_right hd hh ha]
    constructor
    · rintro ⟨out, hout⟩
      cases hout
    · rintro ⟨-, -, h3, -⟩
      rw [exists_iff_filter_ne_nil] at h3
      exact absurd ha h3
  | cons ac acs =>
  cases hg : t.cols.filter (fun c => strContainsCI c "home" && strContainsCI c "goal") with
  | nil =>
    rw [load_match_data_goal_error_left hd hh ha hg]
    constructor
    · rintro ⟨out, hout⟩
      cases hout
    · rintro ⟨-, -, -, h4, -⟩
      rw [exists_iff_filter_ne_nil] at h4
      exact absurd hg h4
  | cons gc gcs =>
  cases hag : t.cols.filter (fun c => strContainsCI c "away" && strContainsCI c "goal") with
  | nil =>
    rw [load_match_data_goal_error_right hd hh ha hg hag]
    constructor
    · rintro ⟨out, hout⟩
      cases hout
    · rintro ⟨-, -, -, -, h5⟩
      rw [exists_iff_filter_ne_nil] at h5
      exact absurd hag h5
  | cons agc agcs =>
    rw [load_match_data_ok hd hh ha hg hag]
    constructor
    · intro _
      exact ⟨head_filter_exists hd, head_filter_exists hh, head_filter_exists ha,
        head_filter_exists hg, head_filter_exists hag⟩
    · intro _
      exact ⟨_, rfl⟩

theorem load_match_data_date_error_iff (t : Table) :
    (load_match_data (some t)
        = Except.error "Could not find a date column in Liga Argentina dataset.") ↔
      ¬ ∃ c ∈ t.cols, (strContainsCI c "date" || strContainsCI c "fecha") = true := by
  rw [exists_iff_filter_ne_nil, not_not]
  cases hd : t.cols.filter (fun c => strContainsCI c "date" || strContainsCI c "fecha") with
  | nil =>
    rw [load_match_data_date_error hd]
    simp
  | cons dc dcs =>
    constructor
    · intro hout
      exfalso
      cases hh : t.cols.filter (fun c => strContainsCI c "home" && strContainsCI c "team") with
      | nil =>
        rw [load_match_data_team_error_left hd hh] at hout
        exact absurd (Except.error.inj hout) (by decide)
      | cons hc hcs =>
      cases ha : t.cols.filter (fun c => strContainsCI c "away" && strContainsCI c "team") with
      | nil =>
        rw [load_match_data_team_error_right hd hh ha] at hout
        exact absurd (Except.error.inj hout) (by decide)
      | cons ac acs =>
      cases hg : t.cols.filter (fun c => strContainsCI c "home" && strContainsCI c "goal") with
      | nil =>
        rw [load_match_data_goal_error_left hd hh ha hg] at hout
        exact absurd (Except.error.inj hout) (by decide)
      | cons gc gcs =>
      cases hag : t.cols.filter (fun c => strContainsCI c "away" && strContainsCI c "goal") with
      | nil =>
        rw [load_match_data_goal_error_right hd hh ha hg hag] at hout
        exact absurd (Except.error.inj hout) (by decide)
      | cons agc agcs =>
        rw [load_match_data_ok hd hh ha hg hag] at hout
        cases hout
    · intro h
      cases h

/-- C6 is false as stated: the call loader does not accept a "date"-only
header.  A table whose only column is named "date" (which contains "date"
but not "fecha") is rejected by `load_dv_data` with the no-date-column
error, instead of being accepted. -/
theorem C6_counterexample :
    load_dv_data { cols := ["date"], rows := [fun _ => Cell.date (some 0)] }
      = Except.error "No date column found in DV dataset. Please inspect the CSV." := rfl

/-- C6 (amended): the call loader selects as its date column the first
column whose name contains, case-insensitively, the substring "fecha" only
("date" is not recognised there), and accepts a table exactly when such a
column exists; the match loader's date discovery accepts exactly when some
column name contains "date" or "fecha".  Hence a table whose only
date-bearing column name contains "date" but not "fecha" is accepted by
the match loader's date check but rejected by the call loader.  Both
loaders take the first matching column in column order (for the match
loader, `dc` below is the head of its date-candidate list). -/
theorem C6_date_column_selection (t : Table) :
    ((∃ out, load_dv_data t = Except.ok out) ↔
      ∃ c ∈ t.cols, strContainsCI c "fecha" = true) ∧
    (∀ c cs, t.cols.filter (fun c => strContainsCI c "fecha") = c :: cs →
      load_dv_data t = Except.ok (dvDaily (t.rows.filterMap (fun r => (r c).asDate)))) ∧
    ((load_match_data (some t)
        = Except.error "Could not find a date column in Liga Argentina dataset.") ↔
      ¬ ∃ c ∈ t.cols, (strContainsCI c "date" || strContainsCI c "fecha") = true) ∧
    (∀ dc dcs hc hcs ac acs gc gcs agc agcs,
      t.cols.filter (fun c => strContainsCI c "date" || strContainsCI c "fecha") = dc :: dcs →
      t.cols.filter (fun c => strContainsCI c "home" && strContainsCI c "team") = hc :: hcs →
      t.cols.filter (fun c => strContainsCI c "away" && strContainsCI c "team") = ac :: acs →
      t.cols.filter (fun c => strContainsCI c "home" && strContainsCI c "goal") = gc :: gcs →
      t.cols.filter (fun c => strContainsCI c "away" && strContainsCI c "goal") = agc :: agcs →
      load_match_data (some t) = Except.ok (t.rows.filterMap (fun r =>
        match (r dc).asDate with
        | none => none
        | some d => some (mkMatchRow
            { date := d
              home := (r hc).asStr.trim
              away := (r ac).asStr.trim
              hg := (r gc).asNum
              ag := (r agc).asNum })))) := by
  refine ⟨?_, ?_, load_match_data_date_error_iff t,
    fun dc dcs hc hcs ac acs gc gcs agc agcs hd hh ha hg hag =>
      load_match_data_ok hd hh ha hg hag⟩
  · constructor
    · rintro ⟨out, hout⟩
      cases hf : t.cols.filter (fun c => strContainsCI c "fecha") with
      | nil =>
        rw [load_dv_data_of_no_col hf] at hout
        cases hout
      | cons c cs => exact head_filter_exists hf
    · intro h
      rw [exists_iff_filter_ne_nil] at h
      cases hf : t.cols.filter (fun c => strContainsCI c "fecha") with
      | nil => exact absurd hf h
      | cons c cs => exact ⟨_, load_dv_data_of_col hf⟩
  · intro c cs hf
    exact load_dv_data_of_col hf

/-- Witness for the amended C6: a table with a "fecha" column is accepted
by the call loader. -/
theorem C6_date_column_selection_witness :
    ∃ out, load_dv_data { cols := ["fecha"], rows := [] } = Except.ok out :=
  (C6_date_column_selection { cols := ["fecha"], rows := [] }).1.mpr
    ⟨"fecha", by decide, by decide⟩

/-- C7: the match loader produces a table exactly when the file is present
and a date column, home/away team-name columns and home/away goal columns
are all found (so it halts iff the file is missing or one of those column
categories is absent, and on a halt no table is produced); and whether it
halts depends only on the column names, never on the rows — in particular
rows whose date value fails to parse are dropped silently and cannot cause
a halt. -/
theorem C7_match_loader_halting (file : Option Table) :
    ((∃ out, load_match_data file = Except.ok out) ↔
      ∃ t, file = some t ∧
        (∃ c ∈ t.cols, (strContainsCI c "date" || strContainsCI c "fecha") = true) ∧
        (∃ c ∈ t.cols, (strContainsCI c "home" && strContainsCI c "team") = true) ∧
        (∃ c ∈ t.cols, (strContainsCI c "away" && strContainsCI c "team") = true) ∧
        (∃ c ∈ t.cols, (strContainsCI c "home" && strContainsCI c "goal") = true) ∧
        (∃ c ∈ t.cols, (strContainsCI c "away" && strContainsCI c "goal") = true)) ∧
    (∀ t rows2, file = some t →
      ((∃ out, load_match_data (some (Table.mk t.cols rows2)) = Except.ok out) ↔
        (∃ out, load_match_data file = Except.ok out))) := by
  constructor
  · cases file with
    | none =>
      constructor
      · rintro ⟨out, hout⟩
        cases hout
      · rintro ⟨t, ht, -⟩
        cases ht
    | some t =>
      rw [load_match_data_ok_iff t]
      constructor
      · intro h
        exact ⟨t, rfl, h⟩
      · rintro ⟨t2, ht2, h⟩
        cases ht2
        exact h
  · rintro t rows2 rfl
    rw [load_match_data_ok_iff, load_match_data_ok_iff]

/-- Witness for C7: a table carrying all five column categories is
accepted. -/
theorem C7_match_loader_halting_witness :
    ∃ out, load_match_data
        (some { cols := ["date", "home_team", "away_team", "home_goals", "away_goals"],
                rows := [] })
      = Except.ok out :=
  (C7_match_loader_halting
      (some { cols := ["date", "home_team", "away_team", "home_goals", "away_goals"],
              rows := [] })).1.mpr
    ⟨_, rfl,
      ⟨"date", by decide, by decide⟩,
      ⟨"home_team", by decide, by decide⟩,
      ⟨"away_team", by decide, by decide⟩,
      ⟨"home_goals", by decide, by decide⟩,
      ⟨"away_goals", by decide, by decide⟩⟩

/-- C8: in the derby-window computation over the merged table, a pair of a
derby date `d` and an offset `t ∈ {-3..3}` contributes an observation
exactly when `d + t` lies inside the merged calendar's date range; the
output rows of the per-offset average are the mean of `dv_calls` over all
contributing (derby, offset) pairs at that offset; and an offset appears in
the output exactly when it has at least one contributing observation (no
zero-filling of absent offsets). -/
theorem C8_derby_window (dv : List (Int × Nat)) (ms : List MatchRow) :
    (∀ d ∈ scDates (build_daily_merged dv ms), ∀ t ∈ offsets,
      (((build_daily_merged dv ms).find? (fun row => row.date == d + t)).isSome = true ↔
        (mergedStart dv ms ≤ d + t ∧ d + t ≤ mergedEnd dv ms))) ∧
    (∀ t m, (t, m) ∈ scAvg (build_daily_merged dv ms) →
      m = ratMean (((scWindow (build_daily_merged dv ms)).filter
            (fun p => p.1 == t)).map Prod.snd)) ∧
    (∀ t : Int, (∃ m, (t, m) ∈ scAvg (build_daily_merged dv ms)) ↔
      ∃ p ∈ scWindow (build_daily_merged dv ms), p.1 = t) := by
  refine ⟨?_, ?_, ?_⟩
  · intro d _ t _
    rw [List.find?_isSome]
    constructor
    · rintro ⟨row, hrow, hmatch⟩
      rcases mem_build_daily_merged.mp hrow with ⟨d2, hd2, rfl⟩
      have hdd : d2 = d + t := by simpa using hmatch
      exact hdd ▸ hd2
    · intro hb
      refine ⟨mergedRow dv (aggMatches ms) (d + t),
        mem_build_daily_merged.mpr ⟨d + t, hb, rfl⟩, ?_⟩
      simp [mergedRow]
  · intro t m hm
    unfold scAvg at hm
    rcases List.mem_map.mp hm with ⟨k, _, hkeq⟩
    cases hkeq
    rfl
  · intro t
    constructor
    · rintro ⟨m, hm⟩
      unfold scAvg at hm
      rcases List.mem_map.mp hm with ⟨k, hk, hkeq⟩
      injection hkeq with h1 h2
      subst h1
      have hk2 : k ∈ (scWindow (build_daily_merged dv ms)).map Prod.fst :=
        (mem_sortedKeys intLE _ k).mp hk
      rcases List.mem_map.mp hk2 with ⟨p, hp, hpt⟩
      exact ⟨p, hp, hpt⟩
    · rintro ⟨p, hp, hpt⟩
      have h1 : t ∈ (scWindow (build_daily_merged dv ms)).map Prod.fst :=
        List.mem_map.mpr ⟨p, hp, hpt⟩
      have h2 : t ∈ sortedKeys intLE ((scWindow (build_daily_merged dv ms)).map Prod.fst) :=
        (mem_sortedKeys intLE _ t).mpr h1
      exact ⟨_, List.mem_map.mpr ⟨t, h2, rfl⟩⟩

/-- Witness for C8 at the C5 scenario: day 2 is a derby date, offset -2
points at day 0, which is inside the range. -/
theorem C8_derby_window_witness :
    (((build_daily_merged (dvDaily [0, 0, 0, 0, 0])
          ([⟨2, "River Plate", "Boca Juniors", 2, 1⟩].map mkMatchRow)).find?
        (fun row => row.date == 2 + -2)).isSome = true ↔
      (mergedStart (dvDaily [0, 0, 0, 0, 0])
          ([⟨2, "River Plate", "Boca Juniors", 2, 1⟩].map mkMatchRow) ≤ 2 + -2 ∧
        2 + -2 ≤ mergedEnd (dvDaily [0, 0, 0, 0, 0])
          ([⟨2, "River Plate", "Boca Juniors", 2, 1⟩].map mkMatchRow))) :=
  (C8_derby_window (dvDaily [0, 0, 0, 0, 0])
      ([⟨2, "River Plate", "Boca Juniors", 2, 1⟩].map mkMatchRow)).1
    2 (by decide) (-2) (by decide)

/-- C9: each team's breakdown restricts the merged table to the rows with
that team's played flag set; a restricted row is categorised "win" when the
team's win flag is 1 (taking precedence when both flags are set), else
"loss" when its loss flag is 1, else "draw"; and every output row of the
summary carries the count and the mean of `dv_calls` of its category. -/
theorem C9_team_breakdown (df : List DailyRow) :
    (∀ r : DailyRow, r ∈ riverDays df ↔ (r ∈ df ∧ r.river_played = 1)) ∧
    (∀ r : DailyRow,
      (riverCat r = Res.win ↔ r.river_win = 1) ∧
      (riverCat r = Res.loss ↔ (r.river_win ≠ 1 ∧ r.river_loss = 1)) ∧
      (riverCat r = Res.draw ↔ (r.river_win ≠ 1 ∧ r.river_loss ≠ 1))) ∧
    (∀ c m n, (c, m, n) ∈ riverSummary df →
      n = ((riverDays df).filter (fun r => riverCat r == c)).length ∧
      m = ratMean (((riverDays df).filter (fun r => riverCat r == c)).map DailyRow.dv_calls)) ∧
    (∀ r : DailyRow, r ∈ bocaDays df ↔ (r ∈ df ∧ r.boca_played = 1)) ∧
    (∀ r : DailyRow,
      (bocaCat r = Res.win ↔ r.boca_win = 1) ∧
      (bocaCat r = Res.loss ↔ (r.boca_win ≠ 1 ∧ r.boca_loss = 1)) ∧
      (bocaCat r = Res.draw ↔ (r.boca_win ≠ 1 ∧ r.boca_loss ≠ 1))) ∧
    (∀ c m n, (c, m, n) ∈ bocaSummary df →
      n = ((bocaDays df).filter (fun r => bocaCat r == c)).length ∧
      m = ratMean (((bocaDays df).filter (fun r => bocaCat r == c)).map DailyRow.dv_calls)) := by
  refine ⟨?_, ?_, ?_, ?_, ?_, ?_⟩
  · intro r
    unfold riverDays
    rw [List.mem_filter]
    simp
  · intro r
    unfold riverCat
    by_cases h1 : r.river_win = 1
    · simp [h1]
    · by_cases h2 : r.river_loss = 1 <;> simp [h1, h2]
  · intro c m n hm
    unfold riverSummary resultSummary at hm
    rcases List.mem_map.mp hm with ⟨k, _, hkeq⟩
    cases hkeq
    exact ⟨rfl, rfl⟩
  · intro r
    unfold bocaDays
    rw [List.mem_filter]
    simp
  · intro r
    unfold bocaCat
    by_cases h1 : r.boca_win = 1
    · simp [h1]
    · by_cases h2 : r.boca_loss = 1 <;> simp [h1, h2]
  · intro c m n hm
    unfold bocaSummary resultSummary at hm
    rcases List.mem_map.mp hm with ⟨k, _, hkeq⟩
    cases hkeq
    exact ⟨rfl, rfl⟩

/-- Witness for C9: a played day with the win flag set is categorised
"win". -/
theorem C9_team_breakdown_witness :
    riverCat ⟨0, 3, 1, 0, 0, 1, 0, 0, 0, 1⟩ = Res.win :=
  ((C9_team_breakdown []).2.1 ⟨0, 3, 1, 0, 0, 1, 0, 0, 0, 1⟩).1.mpr rfl

end FootballDV
